import Mathlib

/-!
Verification of the ATECC608 command/response core of armoryctl
(package atecc608, file atecc608.go).

Bytes are modelled as `Nat` values below 256; byte slices as `List Nat`.
Machine-integer overflow is made explicit with `% 256` / `% 65536` at the
points where the Go code relies on the width of `byte` / `uint16`.
The I2C bus transport (`armoryctl.I2CWrite` / `armoryctl.I2CRead`) is an
external black box; it is modelled as an oracle indexed by the sequence
number of the bus call, and every driver function is embedded as a function
of that oracle which also records the trace of bus operations it performs.
-/

namespace Atecc608

/-- Go global `I2CBus = 0`. -/
def I2CBus : Nat := 0

/-- Go global `I2CAddress = 0x60`. -/
def I2CAddress : Nat := 0x60

/-- Go constant `CmdAddress = 0x03`. -/
def CmdAddress : Nat := 0x03

/-- Go constant `CRC16Poly uint16 = 0x8005`. -/
def CRC16Poly : Nat := 0x8005

/-- Go constant `CmdMinLen = 7`. -/
def CmdMinLen : Nat := 7

/-- Go constant `ResponseMinLen = 4`. -/
def ResponseMinLen : Nat := 4

/-- The successive values taken by the `uint8` loop variable `shift` in
`crc16`: `for shift := uint8(0x01); shift > 0x00; shift <<= 1` runs for
`shift = 1, 2, 4, ..., 0x80` and stops when the shift overflows to 0. -/
def shifts : List Nat := [0x01, 0x02, 0x04, 0x08, 0x10, 0x20, 0x40, 0x80]

/-- One iteration of the inner loop body of Go `crc16` for a given `shift`
mask: `d` is 1 when the input byte has the masked bit set, `c` is
`uint8(crc >> 15)`, the register is shifted left by one (as `uint16`, hence
`% 65536`), and XORed with the polynomial when `d != c`.  The `% 256` on the
data byte mirrors the `uint8(data[i])` cast. -/
def crcShiftStep (b : Nat) (crc : Nat) (shift : Nat) : Nat :=
  let d : Nat := if (b % 256) &&& shift ≠ 0 then 1 else 0
  let c : Nat := crc >>> 15
  let crc2 : Nat := (crc <<< 1) % 65536
  if d ≠ c then crc2 ^^^ CRC16Poly else crc2

/-- The per-byte inner loop of Go `crc16`. -/
def crcByteStep (crc : Nat) (b : Nat) : Nat :=
  shifts.foldl (crcShiftStep b) crc

/-- Go `crc16`: 16-bit register starting at 0, updated per input byte by the
shift loop, returned as `[]byte{byte(crc & 0xff), byte(crc >> 8)}`
(low byte first; the high byte cast is `% 256`). -/
def crc16 (data : List Nat) : List Nat :=
  let crc := data.foldl crcByteStep 0
  [crc &&& 0xff, (crc >>> 8) % 256]

/-- Modelled from the spec (section 4.1 Checksum), one bit step of the
reference bit-serial CRC-16: compute the data bit and `carry_bit` (bit 15 of
the register), left-shift the register by one (16-bit register), and if the
data bit differs from the carry bit, XOR with the fixed polynomial 0x8005. -/
def crcRefBit (reg : Nat) (dataBit : Bool) : Nat :=
  let carryBit := reg.testBit 15
  let reg2 := (2 * reg) % 65536
  if dataBit ≠ carryBit then reg2 ^^^ 0x8005 else reg2

/-- Modelled from the spec: for each input byte, process its bits from
least-significant to most-significant. -/
def crcRefByte (reg : Nat) (b : Nat) : Nat :=
  (List.range 8).foldl (fun r j => crcRefBit r (b.testBit j)) reg

/-- Modelled from the spec: the reference CRC-16 of a byte sequence, the
16-bit register initialized to zero and output as two bytes, low byte
first. -/
def crc16Ref (data : List Nat) : List Nat :=
  let reg := data.foldl crcRefByte 0
  [reg % 256, reg / 256]

/-- Go map `Status`: device status/error codes.  A missing key yields the
zero value `""`, exactly as a Go map lookup does. -/
def Status (b : Nat) : String :=
  if b = 0x00 then "successful command execution"
  else if b = 0x01 then "checkmac or verify miscompare"
  else if b = 0x03 then "parse error"
  else if b = 0x05 then "ECC fault"
  else if b = 0x07 then "self test error"
  else if b = 0x08 then "health test error"
  else if b = 0x0f then "execution error"
  else if b = 0x11 then "after wake, prior to first command"
  else if b = 0xee then "watchdog about to expire"
  else if b = 0xff then "CRC or other communications error"
  else ""

/-- Go `fmt` verb `%x` applied to an integer value: lowercase hexadecimal
with no leading zeros. -/
def hexStr (n : Nat) : String := String.mk (Nat.toDigits 16 n)

/-- Go `fmt` verb `%x` applied to a single byte of a byte slice: exactly two
lowercase hexadecimal digits. -/
def hexByte2 (n : Nat) : String :=
  String.mk [Nat.digitChar (n / 16 % 16), Nat.digitChar (n % 16)]

/-- Go `fmt` verb `%x` applied to a byte slice: each byte as two lowercase
hexadecimal digits, concatenated. -/
def hexBytes (bs : List Nat) : String := String.join (bs.map hexByte2)

/-- Go `verifyResponse`: returns the pair (data, err), mirroring the Go
multiple return values (`none` plays the role of a nil error).  The response
is split as `count = res[0]`, `payload = res[:len-2]`, `data = res[1:len-2]`
and `crc = res[len-2:]`; the checksum is recomputed over payload; when the
count byte is 4 the first data byte is interpreted as a status code.
`res.headD 0` stands for `res[0]` (safe: the length check guarantees the
list is long enough at every indexing site). -/
def verifyResponse (res : List Nat) : List Nat × Option String :=
  if res.length < ResponseMinLen then
    ([], some "invalid response, got less than 4 bytes")
  else
    let size := res.length - 2
    let count := res.headD 0
    let payload := res.take size
    let data := (res.take size).drop 1
    let crc := res.drop size
    if crc16 payload ≠ crc then
      (data, some "checksum verification failure")
    else if count ≠ 4 then
      (data, none)
    else
      let status := data.headD 0
      if Status status = "" then
        (data, some ("invalid status/error code: " ++ hexStr status))
      else if status ≠ 0x00 ∧ (status ≤ 0x0f ∨ status = 0xff) then
        (data, some (Status status))
      else
        (data, none)

/-- The status interpretation performed by `verifyResponse` on a count-4
response, factored out for use in theorem statements: unknown code, known
non-success code at most 0x0f or equal to 0xff, or accepted. -/
def statusInterp (status : Nat) : Option String :=
  if Status status = "" then
    some ("invalid status/error code: " ++ hexStr status)
  else if status ≠ 0x00 ∧ (status ≤ 0x0f ∨ status = 0xff) then
    some (Status status)
  else
    none

/-- The command frame built by `ExecuteCmd` before transmission:
`count | opcode | param1 | param2 | data | crc16`, where the count byte is
`byte(CmdMinLen + len(data))` (a `byte` cast, hence `% 256`). -/
def encodeCmdFrame (opcode p1 p2a p2b : Nat) (data : List Nat) : List Nat :=
  let cmd := [(CmdMinLen + data.length) % 256] ++ [opcode] ++ [p1] ++ [p2a, p2b] ++ data
  cmd ++ crc16 cmd

/-- One bus transport operation, as issued through `armoryctl.I2CWrite` /
`armoryctl.I2CRead` (bus index, device address, register address, and the
data bytes or the requested length). -/
inductive BusOp where
  | write (busIdx addr reg : Nat) (data : List Nat)
  | read (busIdx addr reg len : Nat)
deriving DecidableEq, Repr

/-- The outcome of one bus transport operation: success (with the bytes
read; ignored for writes) or a transport error. -/
inductive BusRes where
  | ok (bytes : List Nat)
  | err (e : String)
deriving DecidableEq, Repr

/-- Whether a bus outcome is a success. -/
def BusRes.isOk : BusRes → Bool
  | .ok _ => true
  | .err _ => false

/-- The bus transport, an external black box: the behaviour observed by the
n-th bus call of a run. -/
def Bus : Type := Nat → BusOp → BusRes

/-- A computation against the bus: given the bus and the number of bus calls
already made, it yields a value, the trace of bus operations it performed,
and the updated call count.  This models the Go code's sequential, blocking
use of the transport; the timed settle delays (`time.Sleep`) and the
diagnostic `log.Printf` calls have no observable effect here and are
omitted. -/
def M (α : Type) : Type := Bus → Nat → α × List BusOp × Nat

/-- Return a value, performing no bus operation. -/
def M.pure (a : α) : M α := fun _ n => (a, [], n)

/-- Sequence two bus computations, concatenating their traces. -/
def M.bind (m : M α) (f : α → M β) : M β := fun bus n =>
  let (a, t1, n1) := m bus n
  let (b, t2, n2) := f a bus n1
  (b, t1 ++ t2, n2)

/-- Issue one bus operation and observe its raw outcome. -/
def busCall (op : BusOp) : M BusRes := fun bus n => (bus n op, [op], n + 1)

/-- Go `armoryctl.I2CWrite(bus, addr, reg, data)`: returns the error (or
`none` for a nil error). -/
def I2CWrite (busIdx addr reg : Nat) (data : List Nat) : M (Option String) :=
  M.bind (busCall (.write busIdx addr reg data)) fun r =>
    M.pure (match r with | .ok _ => none | .err e => some e)

/-- Go `armoryctl.I2CRead(bus, addr, reg, len)`: returns the bytes read and
the error.  On error the returned slice is not used by any caller; it is
modelled as empty. -/
def I2CRead (busIdx addr reg len : Nat) : M (List Nat × Option String) :=
  M.bind (busCall (.read busIdx addr reg len)) fun r =>
    M.pure (match r with | .ok bs => (bs, none) | .err e => ([], some e))

/-- On the I2C wire, a register write transmits the register (word address)
byte followed by the data bytes. -/
def wireBytes (reg : Nat) (data : List Nat) : List Nat := reg :: data

/-- Go `Wake`: a first write to register 0x01 at device address 0 whose
error is silently discarded, then a verifying 4-byte read from register 0
at the device address; a transport error from that read is returned
unchanged; otherwise the response is verified and, when verification failed
and `data[0] != 0x11`, the error is replaced by "wake-up failed".
`data.headD 0` stands for the Go indexing `data[0]` (under the transport
contract the read returns 4 bytes, so `data` is nonempty). -/
def Wake : M (Option String) :=
  M.bind (I2CWrite I2CBus 0 0x01 [0x00]) fun _ =>
  M.bind (I2CRead I2CBus I2CAddress 0x00 4) fun rr =>
  match rr with
  | (_, some e) => M.pure (some e)
  | (res, none) =>
    let (data, err) := verifyResponse res
    M.pure (match err with
      | some e => if data.headD 0 ≠ 0x11 then some "wake-up failed" else some e
      | none => none)

/-- Go `Sleep`: a single write to register 0x01 with no data bytes, the
error intentionally discarded (`_ =`), nothing returned. -/
def Sleep : M Unit :=
  M.bind (I2CWrite I2CBus I2CAddress 0x01 []) fun _ => M.pure ()

/-- Go `Idle`: a single write to register 0x02 with no data bytes, the
error intentionally discarded (`_ =`), nothing returned. -/
def Idle : M Unit :=
  M.bind (I2CWrite I2CBus I2CAddress 0x02 []) fun _ => M.pure ()

/-- The body of Go `ExecuteCmd` after the optional wake handling: build the
command frame, write it to the command register (propagating a write
error), write a zero byte to register 0 with the error discarded (`_ =` in
the source), read the 1-byte result length, then read that many bytes and
verify them as a response frame.  `resCount.headD 0` stands for the Go
indexing `resCount[0]` (the transport returns the one requested byte). -/
def ExecuteCmdBody (opcode p1 p2a p2b : Nat) (data : List Nat) :
    M (List Nat × Option String) :=
  let cmd := encodeCmdFrame opcode p1 p2a p2b data
  M.bind (I2CWrite I2CBus I2CAddress CmdAddress cmd) fun werr =>
  match werr with
  | some e => M.pure ([], some e)
  | none =>
    M.bind (I2CWrite I2CBus I2CAddress 0x00 [0x00]) fun _ =>
    M.bind (I2CRead I2CBus I2CAddress CmdAddress 1) fun rc =>
    match rc with
    | (_, some e) => M.pure ([], some e)
    | (resCount, none) =>
      M.bind (I2CRead I2CBus I2CAddress CmdAddress (resCount.headD 0)) fun rr =>
      match rr with
      | (res, some e) => M.pure (res, some e)
      | (res, none) => M.pure (verifyResponse res)

/-- Go `ExecuteCmd`: when the wake flag is set, perform `Wake` first,
returning its error immediately on failure, and run `Idle` when the body
returns (the `defer Idle()` in the source); otherwise just run the body. -/
def ExecuteCmd (opcode p1 p2a p2b : Nat) (data : List Nat) (wake : Bool) :
    M (List Nat × Option String) :=
  if wake then
    M.bind Wake fun werr =>
    match werr with
    | some e => M.pure ([], some e)
    | none =>
      M.bind (ExecuteCmdBody opcode p1 p2a p2b data) fun r =>
      M.bind Idle fun _ => M.pure r
  else
    ExecuteCmdBody opcode p1 p2a p2b data

/-- Go map `Test`: supported self tests and their result bit masks, in
source declaration order.  Go iterates maps in an unspecified order; the
model fixes the declaration order, and the per-capability facts proved
below do not depend on it. -/
def Test : List (String × Nat) :=
  [("SHA", 0x20), ("AES", 0x10), ("ECDH", 0x08),
   ("ECDSA Sign", 0x04), ("ECDSA Verify", 0x02), ("RNG DRBG", 0x01)]

/-- The report string built by the loop in Go `SelfTest`: for each named
test, append "name:FAIL " when the mask bit is set in the result byte,
"name:PASS " when it is clear. -/
def selfTestReport (b : Nat) : String :=
  Test.foldl (fun acc kv =>
    acc ++ kv.1 ++ (if b &&& kv.2 ≠ 0 then ":FAIL " else ":PASS ")) ""

/-- Go `SelfTest`: execute the SelfTest command (opcode `Cmd["SelfTest"] =
0x77`, param1 0x3b = run all tests) inside a wake session, report per-bit
PASS/FAIL of `data[0]`, then `Sleep`.  `data.headD 0` stands for the Go
indexing `data[0]`. -/
def SelfTest : M (String × Option String) :=
  M.bind (ExecuteCmd 0x77 0x3b 0x00 0x00 [] true) fun de =>
  match de with
  | (_, some e) => M.pure ("", some e)
  | (data, none) =>
    M.bind Sleep fun _ => M.pure (selfTestReport (data.headD 0), none)

/-- Modelled from the external Go library `encoding/hex`: the value of one
hexadecimal digit character, or `none` when the character is not a
hexadecimal digit. -/
def hexDigitVal (c : Char) : Option Nat :=
  if '0' ≤ c ∧ c ≤ '9' then some (c.toNat - '0'.toNat)
  else if 'a' ≤ c ∧ c ≤ 'f' then some (c.toNat - 'a'.toNat + 10)
  else if 'A' ≤ c ∧ c ≤ 'F' then some (c.toNat - 'A'.toNat + 10)
  else none

/-- Modelled from the external Go library `encoding/hex` `DecodeString`:
decode pairs of hexadecimal digits into bytes, failing on an odd-length
input or on a character that is not a hexadecimal digit. -/
def hexDecodeChars : List Char → Except String (List Nat)
  | [] => Except.ok []
  | [_] => Except.error "encoding/hex: odd length hex string"
  | c1 :: c2 :: rest =>
    match hexDigitVal c1, hexDigitVal c2 with
    | some h, some l => (hexDecodeChars rest).map (fun bs => (16 * h + l) :: bs)
    | _, _ => Except.error "encoding/hex: invalid byte"

/-- Modelled from the external Go library `encoding/hex` `DecodeString`. -/
def hexDecode (s : String) : Except String (List Nat) := hexDecodeChars s.data

/-- The UTF-8 encoding of one character, as produced by the Go conversion
`[]byte(string)`. -/
def utf8Char (c : Char) : List Nat :=
  let n := c.toNat
  if n < 0x80 then [n]
  else if n < 0x800 then [0xC0 + n / 64, 0x80 + n % 64]
  else if n < 0x10000 then
    [0xE0 + n / 4096, 0x80 + n / 64 % 64, 0x80 + n % 64]
  else
    [0xF0 + n / 262144, 0x80 + n / 4096 % 64, 0x80 + n / 64 % 64, 0x80 + n % 64]

/-- The bytes of the Go conversion `[]byte(msg)`: UTF-8 encoding of the
string. -/
def strBytes (s : String) : List Nat := (s.data.map utf8Char).flatten

/-- The computation of `msg_bytes` in Go `SHA256`: when the format is "hex"
and the message is nonempty, hex-decode it (propagating a decode error);
when the format is "str", take the message bytes; otherwise `msg_bytes`
stays nil. -/
def shaMsgBytes (sfmt msg : String) : Except String (List Nat) :=
  if sfmt = "hex" ∧ msg.length > 0 then hexDecode msg
  else if sfmt = "str" then Except.ok (strBytes msg)
  else Except.ok []

/-- The update loop of Go `SHA256`: `cnt` remaining iterations, `i` the
current block index; each iteration executes an Update command (opcode
0x47, param1 `ShaMode["SHA_MODE_SHA256_UPDATE"] = 1`, param2 {0x40, 0})
carrying `msg_bytes[i*0x40:(i+1)*0x40]` inside a wake session, returning
its error as soon as one fails. -/
def shaUpdates (mb : List Nat) : Nat → Nat → List Nat →
    M (List Nat × Option String)
  | _, 0, data => M.pure (data, none)
  | i, cnt + 1, _ =>
    M.bind (ExecuteCmd 0x47 0x01 0x40 0x00 ((mb.drop (64 * i)).take 64) true) fun de =>
    match de with
    | (d, some e) => M.pure (d, some e)
    | (d, none) => shaUpdates mb (i + 1) cnt d

/-- Go `SHA256` after `msg_bytes` is available: run `block_cnt =
len(msg_bytes)/64` updates, then the End command (param1
`ShaMode["SHA_MODE_SHA256_END"] = 2`, param2 `{byte(len(msg_bytes) -
block_cnt*64), 0}`) carrying `msg_bytes[block_cnt*64:]`, then `Sleep`, and
format the digest. -/
def SHA256run (mb : List Nat) (startData : List Nat) :
    M (String × Option String) :=
  M.bind (shaUpdates mb 0 (mb.length / 64) startData) fun de =>
  match de with
  | (_, some e) => M.pure ("", some e)
  | (_, none) =>
    M.bind (ExecuteCmd 0x47 0x02 ((mb.length - mb.length / 64 * 64) % 256) 0x00
        (mb.drop (mb.length / 64 * 64)) true) fun fe =>
    match fe with
    | (_, some e) => M.pure ("", some e)
    | (data, none) =>
      M.bind Sleep fun _ =>
      M.pure ("SHA256 HexDigest: " ++ hexBytes data, none)

/-- Go `SHA256`: the Start command (opcode `Cmd["SHA256"] = 0x47`, param1
`ShaMode["SHA_MODE_SHA256_START"] = 0`, no data) inside a wake session,
then the decoding of the message (note the source decodes only after
Start), then updates, End and Sleep. -/
def SHA256 (sfmt msg : String) : M (String × Option String) :=
  M.bind (ExecuteCmd 0x47 0x00 0x00 0x00 [] true) fun de =>
  match de with
  | (_, some e) => M.pure ("", some e)
  | (data, none) =>
    match shaMsgBytes sfmt msg with
    | Except.error e => M.pure ("", some e)
    | Except.ok mb => SHA256run mb data

/-- The command frames transmitted in a trace: the data of the writes
addressed to the command register `CmdAddress`. -/
def cmdFrames (t : List BusOp) : List (List Nat) :=
  t.filterMap fun op =>
    match op with
    | .write _ _ reg d => if reg = CmdAddress then some d else none
    | .read _ _ _ _ => none

/-- A 4-byte success response frame: count 4, status 0x00, valid
checksum. -/
def okFrame : List Nat := [0x04, 0x00] ++ crc16 [0x04, 0x00]

/-- A bus on which every operation succeeds: writes are accepted, 4-byte
reads deliver a success status frame, 1-byte reads deliver the length 4. -/
def okBus : Bus := fun _ op =>
  match op with
  | .write _ _ _ _ => .ok []
  | .read _ _ _ len =>
    if len = 4 then .ok okFrame else if len = 1 then .ok [0x04] else .ok []

/-- The bus trace of one session-wrapped `ExecuteCmd` (wake flag true) when
every transport call succeeds and the length read yields 4: wake write and
verifying read, command-frame write, result-trigger write, length read,
payload read, and the deferred idle write. -/
def sessionTrace (frame : List Nat) : List BusOp :=
  [.write I2CBus 0 0x01 [0x00],
   .read I2CBus I2CAddress 0x00 4,
   .write I2CBus I2CAddress CmdAddress frame,
   .write I2CBus I2CAddress 0x00 [0x00],
   .read I2CBus I2CAddress CmdAddress 1,
   .read I2CBus I2CAddress CmdAddress 4,
   .write I2CBus I2CAddress 0x02 []]

/-- A bus that behaves like `okBus` except that the payload read of the
first session-wrapped command (the sixth bus call) delivers a count-4
response frame carrying the byte `r`, with a valid checksum — the shape of
a real SelfTest result. -/
def selfTestBus (r : Nat) : Bus := fun n op =>
  if n = 5 then .ok ([0x04, r] ++ crc16 [0x04, r]) else okBus n op

/-- A bus that behaves like `okBus` except that the second bus call — the
result-trigger write of a wakeless `ExecuteCmd` — fails with a transport
error. -/
def trigErrBus : Bus := fun n op =>
  if n = 1 then .err "trigger write failed" else okBus n op

/-- A bus that behaves like `okBus` except that the first bus call fails
with a transport error. -/
def firstErrBus : Bus := fun n op =>
  if n = 0 then .err "bus write failure" else okBus n op

/-- A bus on which every read delivers the frame `[0x04, 0x11, 0x00, 0x00]`:
count 4, status byte 0x11 ("after wake"), but an invalid checksum. -/
def badWakeBus : Bus := fun _ op =>
  match op with
  | .read _ _ _ _ => .ok [0x04, 0x11, 0x00, 0x00]
  | .write _ _ _ _ => .ok []

/-- A bus on which every read delivers the valid success frame `okFrame`. -/
def okReadBus : Bus := fun _ op =>
  match op with
  | .read _ _ _ _ => .ok okFrame
  | .write _ _ _ _ => .ok []

/-- A count-4 response frame with a valid checksum whose status byte is
`s`. -/
def statusFrame (s : Nat) : List Nat := [0x04, s] ++ crc16 [0x04, s]

lemma crcRefBit_lt (reg : Nat) (bit : Bool) : crcRefBit reg bit < 65536 := by
  simp only [crcRefBit]
  have h2 : (2 * reg) % 65536 < 65536 := Nat.mod_lt _ (by norm_num)
  split
  · have hx : (2 * reg) % 65536 ^^^ 0x8005 < 2 ^ 16 :=
      Nat.xor_lt_two_pow (by omega) (by norm_num)
    omega
  · exact h2

lemma crcShiftStep_eq (b crc j : Nat) (hc : crc < 65536) (hj : j < 8) :
    crcShiftStep b crc (2 ^ j) = crcRefBit crc (b.testBit j) := by
  have hA : ((b % 256) &&& 2 ^ j ≠ 0) ↔ (b.testBit j = true) := by
    rw [Nat.and_two_pow]
    have h256 : (256 : Nat) = 2 ^ 8 := by norm_num
    rw [h256, Nat.testBit_mod_two_pow]
    simp only [hj, decide_True, Bool.true_and]
    cases b.testBit j <;> simp
  have hq01 : crc >>> 15 = (if crc.testBit 15 then 1 else 0) := by
    have h1 : crc >>> 15 = crc / 2 ^ 15 := Nat.shiftRight_eq_div_pow crc 15
    have h2 : crc.testBit 15 = decide (crc / 2 ^ 15 % 2 = 1) := Nat.testBit_to_div_mod
    have h3 : crc / 2 ^ 15 < 2 := by omega
    interval_cases h : crc / 2 ^ 15 <;> simp [h1, h2, h]
  have hshl : crc <<< 1 = 2 * crc := by rw [Nat.shiftLeft_eq]; ring
  simp only [crcShiftStep, crcRefBit, CRC16Poly, hshl, hq01]
  by_cases hb : b.testBit j = true <;> by_cases h15 : crc.testBit 15 = true <;>
    simp [hA, hb, h15]

lemma foldl_congr_inv {β : Type} (P : Nat → Prop) (f g : Nat → β → Nat) :
    ∀ (l : List β) (a : Nat), P a →
      (∀ x, P x → ∀ b ∈ l, f x b = g x b ∧ P (g x b)) →
      l.foldl f a = l.foldl g a ∧ P (l.foldl g a) := by
  intro l
  induction l with
  | nil => intro a ha _; exact ⟨rfl, ha⟩
  | cons hd tl ih =>
    intro a ha hstep
    have h1 := hstep a ha hd (by simp)
    have h2 := ih (g a hd) h1.2 (fun x hx b hb => hstep x hx b (by simp [hb]))
    simp only [List.foldl_cons, h1.1]
    exact h2

lemma crcByteStep_eq (crc b : Nat) (hc : crc < 65536) :
    crcByteStep crc b = crcRefByte crc b ∧ crcRefByte crc b < 65536 := by
  have hshifts : shifts = (List.range 8).map (fun j => 2 ^ j) := by decide
  unfold crcByteStep crcRefByte
  rw [hshifts, List.foldl_map]
  exact foldl_congr_inv (fun x => x < 65536)
    (fun c j => crcShiftStep b c (2 ^ j)) (fun r j => crcRefBit r (b.testBit j))
    (List.range 8) crc hc
    (fun x hx j hj => ⟨crcShiftStep_eq b x j hx (List.mem_range.mp hj),
      crcRefBit_lt x _⟩)

/-- C1: for every byte sequence, `crc16` computes the reference bit-serial
CRC-16 described by the spec: 16-bit register starting at zero, per input
byte updated bit by bit from least-significant to most-significant by
left-shifting and XOR-ing with 0x8005 exactly when the input bit differs
from the register's previous bit 15, output low byte first. -/
theorem crc16_matches_reference (data : List Nat) : crc16 data = crc16Ref data := by
  unfold crc16 crc16Ref
  have h := foldl_congr_inv (fun x => x < 65536) crcByteStep crcRefByte data 0
    (by norm_num) (fun x hx b _ => crcByteStep_eq x b hx)
  rw [h.1]
  have hlt := h.2
  set reg := data.foldl crcRefByte 0
  have h255 : reg &&& 255 = reg % 256 := by
    have h : (255 : Nat) = 2 ^ 8 - 1 := by norm_num
    rw [h, Nat.and_pow_two_sub_one_eq_mod]
  have h8 : reg >>> 8 = reg / 256 := by
    have := Nat.shiftRight_eq_div_pow reg 8
    simpa using this
  have hdiv : reg / 256 % 256 = reg / 256 := Nat.mod_eq_of_lt (by omega)
  simp only [h255, h8, hdiv]


lemma encodeCmdFrame_eq (opcode p1 p2a p2b : Nat) (data : List Nat) :
    encodeCmdFrame opcode p1 p2a p2b data =
      ((CmdMinLen + data.length) % 256 :: opcode :: p1 :: p2a :: p2b :: data)
        ++ crc16 ((CmdMinLen + data.length) % 256 :: opcode :: p1 :: p2a :: p2b :: data) := by
  simp [encodeCmdFrame]

/-- C2 (amended): for every received buffer that passes the length and
checksum checks, `verifyResponse` interprets the first payload byte as a
status code exactly when the COUNT BYTE (the first received byte) equals 4,
regardless of the total received length; when the count byte differs from
4, the bytes between the count byte and the trailing checksum are returned
unfiltered with no status interpretation. -/
theorem verifyResponse_dispatch_on_count (res : List Nat)
    (h4 : ResponseMinLen ≤ res.length)
    (hcrc : crc16 (res.take (res.length - 2)) = res.drop (res.length - 2)) :
    (res.headD 0 ≠ 4 →
      verifyResponse res = ((res.take (res.length - 2)).drop 1, none)) ∧
    (res.headD 0 = 4 →
      verifyResponse res = ((res.take (res.length - 2)).drop 1,
        statusInterp (((res.take (res.length - 2)).drop 1).headD 0))) := by
  simp only [verifyResponse, statusInterp, ResponseMinLen] at *
  rw [if_neg (by omega), if_neg (fun h => h hcrc)]
  constructor
  · intro h; rw [if_pos h]
  · intro h
    rw [if_neg (fun h2 => h2 h)]
    split_ifs <;> rfl

/-- C2 counterexample: a buffer of total length 4 with a valid checksum but
count byte 5 and unknown status byte 0x42 is returned with NO error
(the claim requires an UnknownStatus failure for every length-4 buffer),
and a buffer of total length 5 with count byte 4 HAS its payload
interpreted as a status code, yielding a device error (the claim requires
multi-byte payloads to be returned unfiltered). -/
theorem verifyResponse_length_not_dispatch :
    (([0x05, 0x42] ++ crc16 [0x05, 0x42]).length = 4 ∧
      Status 0x42 = "" ∧
      verifyResponse ([0x05, 0x42] ++ crc16 [0x05, 0x42]) = ([0x42], none)) ∧
    (([0x04, 0x01, 0x00] ++ crc16 [0x04, 0x01, 0x00]).length = 5 ∧
      verifyResponse ([0x04, 0x01, 0x00] ++ crc16 [0x04, 0x01, 0x00]) =
        ([0x01, 0x00], some "checkmac or verify miscompare")) := by
  decide

/-- C2 witness: the amended theorem applied at a concrete valid frame with
count byte 5. -/
theorem verifyResponse_dispatch_on_count_witness :
    ResponseMinLen ≤ ([0x05, 0x02] ++ crc16 [0x05, 0x02]).length ∧
    verifyResponse ([0x05, 0x02] ++ crc16 [0x05, 0x02]) = ([0x02], none) := by
  refine ⟨by decide, ?_⟩
  have h := (verifyResponse_dispatch_on_count ([0x05, 0x02] ++ crc16 [0x05, 0x02])
    (by decide) (by decide)).1 (by decide)
  simpa using h

/-- C5 (amended): for every opcode, param1, param2 and data, the encoded
command frame is count, opcode, param1, param2, data followed by the
checksum of that prefix, where the count byte is (7 + len(data)) MOD 256
(the Go `byte` cast wraps); the frame's trailing two bytes equal the
checksum recomputed over its prefix (round-trip). -/
theorem encodeCmdFrame_structure (opcode p1 p2a p2b : Nat) (data : List Nat) :
    encodeCmdFrame opcode p1 p2a p2b data =
      ((CmdMinLen + data.length) % 256 :: opcode :: p1 :: p2a :: p2b :: data)
        ++ crc16 ((CmdMinLen + data.length) % 256 :: opcode :: p1 :: p2a :: p2b :: data) ∧
    (encodeCmdFrame opcode p1 p2a p2b data).take (5 + data.length) =
      (CmdMinLen + data.length) % 256 :: opcode :: p1 :: p2a :: p2b :: data ∧
    (encodeCmdFrame opcode p1 p2a p2b data).drop (5 + data.length) =
      crc16 ((encodeCmdFrame opcode p1 p2a p2b data).take (5 + data.length)) := by
  have hdef := encodeCmdFrame_eq opcode p1 p2a p2b data
  have hlen : ((CmdMinLen + data.length) % 256 :: opcode :: p1 :: p2a :: p2b :: data).length
      = 5 + data.length := by simp; omega
  have htake : (encodeCmdFrame opcode p1 p2a p2b data).take (5 + data.length) =
      (CmdMinLen + data.length) % 256 :: opcode :: p1 :: p2a :: p2b :: data := by
    rw [hdef, ← hlen, List.take_left]
  refine ⟨hdef, htake, ?_⟩
  rw [htake, hdef, ← hlen, List.drop_left]

/-- C5 counterexample: with 249 data bytes the frame's count byte is 0,
not 7 + 249 = 256 as the claim's unqualified `count = 7 + len(data)`
requires: the `byte` conversion wraps modulo 256. -/
theorem encodeCmdFrame_count_wraps :
    (encodeCmdFrame 0x02 0x00 0x00 0x00 (List.replicate 249 0x00)).headD 0 = 0 ∧
    CmdMinLen + (List.replicate 249 (0x00 : Nat)).length = 256 := by
  rw [encodeCmdFrame_eq]
  simp only [List.cons_append, List.headD_cons, List.length_replicate, CmdMinLen]
  norm_num

/-- C6 (amended): for every 4-byte response with a valid checksum WHOSE
COUNT BYTE IS 4, status byte 0x00 yields no error, status byte 0x01 yields
a device error carrying "checkmac or verify miscompare", and any status
byte outside the known enumeration yields the unknown-status error rather
than a silent pass. -/
theorem verifyResponse_status_decoding (s : Nat) (hs : Status s = "") :
    verifyResponse (statusFrame 0x00) = ([0x00], none) ∧
    verifyResponse (statusFrame 0x01) =
      ([0x01], some "checkmac or verify miscompare") ∧
    verifyResponse (statusFrame s) =
      ([s], some ("invalid status/error code: " ++ hexStr s)) := by
  refine ⟨by decide, by decide, ?_⟩
  obtain ⟨c0, c1, hc⟩ : ∃ c0 c1, crc16 [0x04, s] = [c0, c1] := ⟨_, _, rfl⟩
  simp only [statusFrame, hc]
  simp [verifyResponse, hc, hs, ResponseMinLen]

/-- C6 witness: the amended theorem applied at the unknown status byte
0x42. -/
theorem verifyResponse_status_decoding_witness :
    Status 0x42 = "" ∧
    verifyResponse (statusFrame 0x42) =
      ([0x42], some ("invalid status/error code: " ++ hexStr 0x42)) :=
  ⟨by decide, (verifyResponse_status_decoding 0x42 (by decide)).2.2⟩

/-- C6 counterexample: a 4-byte response with a valid checksum whose status
byte is 0x01 but whose count byte is 5 yields NO error, where the claim
requires a DeviceError for every 4-byte valid-checksum response with
status byte 0x01: the code dispatches on the count byte, not the length. -/
theorem verifyResponse_status_byte_ignored :
    ([0x05, 0x01] ++ crc16 [0x05, 0x01]).length = 4 ∧
    crc16 (([0x05, 0x01] ++ crc16 [0x05, 0x01]).take 2) =
      ([0x05, 0x01] ++ crc16 [0x05, 0x01]).drop 2 ∧
    verifyResponse ([0x05, 0x01] ++ crc16 [0x05, 0x01]) = ([0x01], none) := by
  decide


/-- C7: for every bus behaviour, `Sleep` performs exactly one bus write
whose wire bytes are the single byte 0x01 (register 0x01, no data bytes)
and `Idle` exactly one write whose wire bytes are the single byte 0x02;
both ignore any transport error and return nothing. -/
theorem sleep_idle_fire_and_forget (bus : Bus) (n : Nat) :
    Sleep bus n = ((), [BusOp.write I2CBus I2CAddress 0x01 []], n + 1) ∧
    Idle bus n = ((), [BusOp.write I2CBus I2CAddress 0x02 []], n + 1) ∧
    wireBytes 0x01 [] = [0x01] ∧ wireBytes 0x02 [] = [0x02] :=
  ⟨rfl, rfl, rfl, rfl⟩

/-- C3 (amended): in `ExecuteCmd` (wakeless exchange), a transport error at
the command-frame write, at the 1-byte length read, or at the payload read
aborts the operation and propagates that error to the caller.  (The
result-trigger zero-byte write to register 0 is NOT in this list: its
error is discarded by the source, see the counterexample.) -/
theorem executeCmd_transport_error_propagation (opcode p1 p2a p2b : Nat)
    (data : List Nat) (bus : Bus) :
    (∀ e, bus 0 (.write I2CBus I2CAddress CmdAddress
        (encodeCmdFrame opcode p1 p2a p2b data)) = .err e →
      (ExecuteCmd opcode p1 p2a p2b data false bus 0).1 = ([], some e)) ∧
    (∀ e, (bus 0 (.write I2CBus I2CAddress CmdAddress
        (encodeCmdFrame opcode p1 p2a p2b data))).isOk = true →
      bus 2 (.read I2CBus I2CAddress CmdAddress 1) = .err e →
      (ExecuteCmd opcode p1 p2a p2b data false bus 0).1 = ([], some e)) ∧
    (∀ e bs, (bus 0 (.write I2CBus I2CAddress CmdAddress
        (encodeCmdFrame opcode p1 p2a p2b data))).isOk = true →
      bus 2 (.read I2CBus I2CAddress CmdAddress 1) = .ok bs →
      bus 3 (.read I2CBus I2CAddress CmdAddress (bs.headD 0)) = .err e →
      (ExecuteCmd opcode p1 p2a p2b data false bus 0).1 = ([], some e)) := by
  refine ⟨?_, ?_, ?_⟩
  · intro e he
    simp [ExecuteCmd, ExecuteCmdBody, I2CWrite, I2CRead, busCall, M.bind, M.pure, he]
  · intro e h0 h2
    obtain ⟨bs0, hb0⟩ : ∃ bs, bus 0 (.write I2CBus I2CAddress CmdAddress
        (encodeCmdFrame opcode p1 p2a p2b data)) = .ok bs := by
      cases hb : bus 0 (.write I2CBus I2CAddress CmdAddress
          (encodeCmdFrame opcode p1 p2a p2b data)) with
      | ok bs => exact ⟨bs, rfl⟩
      | err e2 => rw [hb] at h0; simp [BusRes.isOk] at h0
    simp [ExecuteCmd, ExecuteCmdBody, I2CWrite, I2CRead, busCall, M.bind, M.pure, hb0, h2]
  · intro e bs h0 h2 h3
    obtain ⟨bs0, hb0⟩ : ∃ bs, bus 0 (.write I2CBus I2CAddress CmdAddress
        (encodeCmdFrame opcode p1 p2a p2b data)) = .ok bs := by
      cases hb : bus 0 (.write I2CBus I2CAddress CmdAddress
          (encodeCmdFrame opcode p1 p2a p2b data)) with
      | ok bs => exact ⟨bs, rfl⟩
      | err e2 => rw [hb] at h0; simp [BusRes.isOk] at h0
    rw [List.headD_eq_head? bs 0] at h3
    simp [ExecuteCmd, ExecuteCmdBody, I2CWrite, I2CRead, busCall, M.bind, M.pure,
      hb0, h2, h3]

/-- C3 counterexample: on a bus whose second call — the result-trigger
zero-byte write to register 0 — fails with a transport error while all
other calls succeed, `ExecuteCmd` still returns a successful result with
no error: the trigger write's error is discarded (`_ =` in the source),
contradicting the claim that an error at that step aborts and propagates. -/
theorem executeCmd_trigger_error_swallowed :
    trigErrBus 1 (BusOp.write I2CBus I2CAddress 0x00 [0x00]) =
      BusRes.err "trigger write failed" ∧
    (ExecuteCmd 0x02 0x80 0x00 0x00 [] false trigErrBus 0).1 = ([0x00], none) := by
  decide

/-- C3 witness: the amended theorem applied to a bus whose first call (the
command-frame write) fails. -/
theorem executeCmd_transport_error_propagation_witness :
    firstErrBus 0 (BusOp.write I2CBus I2CAddress CmdAddress
      (encodeCmdFrame 0x02 0x80 0x00 0x00 [])) = BusRes.err "bus write failure" ∧
    (ExecuteCmd 0x02 0x80 0x00 0x00 [] false firstErrBus 0).1 =
      ([], some "bus write failure") := by
  refine ⟨rfl, ?_⟩
  exact (executeCmd_transport_error_propagation 0x02 0x80 0x00 0x00 [] firstErrBus).1
    "bus write failure" rfl

/-- C4 (amended): for every byte sequence delivered by the verifying 4-byte
read in `Wake`, Wake succeeds when verification succeeds; when verification
fails it fails with the "wake-up failed" error exactly when the returned
data's first byte (the status position) differs from 0x11, and when that
byte equals 0x11 (e.g. a checksum failure on a frame carrying the
after-wake status byte) the verification error itself propagates instead
of WakeFailed; a transport error from the read propagates unchanged. -/
theorem wake_failure_classification (bus : Bus) :
    (∀ e, bus 1 (.read I2CBus I2CAddress 0x00 4) = .err e →
      (Wake bus 0).1 = some e) ∧
    (∀ res, bus 1 (.read I2CBus I2CAddress 0x00 4) = .ok res → res.length = 4 →
      ((verifyResponse res).2 = none → (Wake bus 0).1 = none) ∧
      (∀ m, (verifyResponse res).2 = some m →
        (verifyResponse res).1.headD 0 ≠ 0x11 →
        (Wake bus 0).1 = some "wake-up failed") ∧
      (∀ m, (verifyResponse res).2 = some m →
        (verifyResponse res).1.headD 0 = 0x11 → (Wake bus 0).1 = some m)) := by
  constructor
  · intro e he
    simp [Wake, I2CWrite, I2CRead, busCall, M.bind, M.pure, he]
  · intro res hres hlen
    refine ⟨?_, ?_, ?_⟩
    · intro hv
      obtain ⟨d, hd⟩ : ∃ d, verifyResponse res = (d, none) := by
        cases hvr : verifyResponse res with
        | mk a b => rw [hvr] at hv; simp at hv; exact ⟨a, by rw [hv]⟩
      simp [Wake, I2CWrite, I2CRead, busCall, M.bind, M.pure, hres, hd]
    · intro m hv hhd
      rcases hvr : verifyResponse res with ⟨d, derr⟩
      rw [hvr] at hv hhd
      have hv2 : derr = some m := hv
      have hhd2 : ¬(d.head?.getD 0 = 0x11) := by
        rw [← List.headD_eq_head? d 0]; exact hhd
      subst hv2
      simp [Wake, I2CWrite, I2CRead, busCall, M.bind, M.pure, hres, hvr, hhd2]
    · intro m hv hhd
      rcases hvr : verifyResponse res with ⟨d, derr⟩
      rw [hvr] at hv hhd
      have hv2 : derr = some m := hv
      have hhd2 : d.head?.getD 0 = 0x11 := by
        rw [← List.headD_eq_head? d 0]; exact hhd
      subst hv2
      simp [Wake, I2CWrite, I2CRead, busCall, M.bind, M.pure, hres, hvr, hhd2]

/-- C4 counterexample: the frame [0x04, 0x11, 0x00, 0x00] has an invalid
checksum, so verification fails for a reason other than the after-wake
status — the claim requires `Wake` to fail with the WakeFailed error — but
`Wake` returns the checksum verification error instead, because the code
only substitutes "wake-up failed" when `data[0] != 0x11`. -/
theorem wake_checksum_error_not_wakefailed :
    (verifyResponse [0x04, 0x11, 0x00, 0x00]).2 =
      some "checksum verification failure" ∧
    (Wake badWakeBus 0).1 = some "checksum verification failure" ∧
    "checksum verification failure" ≠ "wake-up failed" := by
  decide

/-- C4 witness: the amended theorem applied to a bus delivering the valid
success frame. -/
theorem wake_failure_classification_witness :
    okReadBus 1 (BusOp.read I2CBus I2CAddress 0x00 4) = BusRes.ok okFrame ∧
    okFrame.length = 4 ∧ (verifyResponse okFrame).2 = none ∧
    (Wake okReadBus 0).1 = none := by
  refine ⟨rfl, by decide, by decide, ?_⟩
  exact ((wake_failure_classification okReadBus).2 okFrame rfl (by decide)).1 (by decide)

/-- C9: evaluation of `SelfTest` at the chip result bytes named by the
claim.  Result byte 0x00 reports all six capabilities as PASS, as claimed.
But for result byte 0x20 (SHA bit set) — delivered as the count-4 frame
[0x04, 0x20] plus checksum — `SelfTest` returns the error "invalid
status/error code: 20" instead of a report, because `verifyResponse`
interprets the first payload byte of every count-4 response as a status
code; the per-bit report that the claim (and the spec, echoing the
datasheet's result bit mask) requires would have been
"SHA:FAIL AES:PASS ..." as the last conjunct shows. -/
theorem selfTest_result_byte_misread_as_status :
    (SelfTest (selfTestBus 0x00) 0).1 =
      ("SHA:PASS AES:PASS ECDH:PASS ECDSA Sign:PASS ECDSA Verify:PASS RNG DRBG:PASS ",
        none) ∧
    selfTestBus 0x20 5 (BusOp.read I2CBus I2CAddress CmdAddress 4) =
      BusRes.ok ([0x04, 0x20] ++ crc16 [0x04, 0x20]) ∧
    (SelfTest (selfTestBus 0x20) 0).1 =
      ("", some ("invalid status/error code: " ++ hexStr 0x20)) ∧
    selfTestReport 0x20 =
      "SHA:FAIL AES:PASS ECDH:PASS ECDSA Sign:PASS ECDSA Verify:PASS RNG DRBG:PASS " := by
  decide

lemma executeCmd_okBus (op p1 p2a p2b : Nat) (d : List Nat) (n : Nat) :
    ExecuteCmd op p1 p2a p2b d true okBus n =
      (([0x00], none), sessionTrace (encodeCmdFrame op p1 p2a p2b d), n + 7) := rfl

lemma cmdFrames_append (t1 t2 : List BusOp) :
    cmdFrames (t1 ++ t2) = cmdFrames t1 ++ cmdFrames t2 := by
  simp [cmdFrames]

lemma cmdFrames_sessionTrace (f : List Nat) :
    cmdFrames (sessionTrace f) = [f] := by
  simp [cmdFrames, sessionTrace, CmdAddress, I2CBus, I2CAddress]

lemma shaUpdates_okBus (mb : List Nat) :
    ∀ (cnt i : Nat) (d0 : List Nat) (n : Nat),
      shaUpdates mb i cnt d0 okBus n =
        (((if cnt = 0 then d0 else [0x00]), none),
          ((List.range cnt).map (fun k =>
            sessionTrace (encodeCmdFrame 0x47 0x01 0x40 0x00
              ((mb.drop (64 * (i + k))).take 64)))).flatten,
          n + 7 * cnt) := by
  intro cnt
  induction cnt with
  | zero => intro i d0 n; rfl
  | succ c ih =>
    intro i d0 n
    have hstep := executeCmd_okBus 0x47 0x01 0x40 0x00 ((mb.drop (64 * i)).take 64) n
    show (M.bind (ExecuteCmd 0x47 0x01 0x40 0x00 ((mb.drop (64 * i)).take 64) true)
        (fun de => match de with
          | (d, some e) => M.pure (d, some e)
          | (d, none) => shaUpdates mb (i + 1) c d)) okBus n = _
    simp only [M.bind, hstep, ih (i + 1) [0x00] (n + 7)]
    have hidx : ∀ k, i + 1 + k = i + (k + 1) := by omega
    have hmap : (List.range (c + 1)).map (fun k =>
        sessionTrace (encodeCmdFrame 0x47 0x01 0x40 0x00
          ((mb.drop (64 * (i + k))).take 64))) =
        sessionTrace (encodeCmdFrame 0x47 0x01 0x40 0x00 ((mb.drop (64 * i)).take 64))
          :: (List.range c).map (fun k =>
            sessionTrace (encodeCmdFrame 0x47 0x01 0x40 0x00
              ((mb.drop (64 * (i + 1 + k))).take 64))) := by
      rw [List.range_succ_eq_map, List.map_cons, List.map_map]
      simp only [Function.comp_def, Nat.succ_eq_add_one, Nat.add_zero]
      simp only [List.cons.injEq, true_and]
      apply List.map_congr_left
      intro a _
      rw [hidx a]
    rw [hmap]
    simp only [List.flatten_cons, Prod.mk.injEq]
    exact ⟨⟨by simp, trivial⟩, trivial, by omega⟩

lemma sha256run_okBus (mb d0 : List Nat) (n : Nat) :
    SHA256run mb d0 okBus n =
      (("SHA256 HexDigest: " ++ hexBytes [0x00], none),
        ((List.range (mb.length / 64)).map (fun k =>
          sessionTrace (encodeCmdFrame 0x47 0x01 0x40 0x00
            ((mb.drop (64 * k)).take 64)))).flatten
        ++ (sessionTrace (encodeCmdFrame 0x47 0x02
             ((mb.length - mb.length / 64 * 64) % 256) 0x00
             (mb.drop (mb.length / 64 * 64)))
        ++ [BusOp.write I2CBus I2CAddress 0x01 []]),
        n + 7 * (mb.length / 64) + 8) := by
  show (M.bind (shaUpdates mb 0 (mb.length / 64) d0) _) okBus n = _
  simp only [M.bind, shaUpdates_okBus mb (mb.length / 64) 0 d0 n]
  simp only [executeCmd_okBus, M.bind, Sleep, I2CWrite, busCall, M.pure, okBus]
  simp

lemma sha256_okBus (sfmt msg : String) (mb : List Nat)
    (h : shaMsgBytes sfmt msg = Except.ok mb) :
    SHA256 sfmt msg okBus 0 =
      (("SHA256 HexDigest: " ++ hexBytes [0x00], none),
        sessionTrace (encodeCmdFrame 0x47 0x00 0x00 0x00 [])
        ++ (((List.range (mb.length / 64)).map (fun k =>
          sessionTrace (encodeCmdFrame 0x47 0x01 0x40 0x00
            ((mb.drop (64 * k)).take 64)))).flatten
        ++ (sessionTrace (encodeCmdFrame 0x47 0x02
             ((mb.length - mb.length / 64 * 64) % 256) 0x00
             (mb.drop (mb.length / 64 * 64)))
        ++ [BusOp.write I2CBus I2CAddress 0x01 []])),
        7 + (7 * (mb.length / 64) + 8)) := by
  show (M.bind (ExecuteCmd 0x47 0x00 0x00 0x00 [] true) _) okBus 0 = _
  simp only [M.bind, executeCmd_okBus, h, sha256run_okBus]
  simp only [Prod.mk.injEq]
  exact ⟨trivial, trivial, by omega⟩

lemma cmdFrames_flatten_sessions {α : Type} (f : α → List Nat) (l : List α) :
    cmdFrames ((l.map (fun x => sessionTrace (f x))).flatten) = l.map f := by
  induction l with
  | nil => rfl
  | cons hd tl ih =>
    simp only [List.map_cons, List.flatten_cons, cmdFrames_append,
      cmdFrames_sessionTrace, ih]
    rfl

/-- C8: on a bus where every transport call succeeds, the command frames
issued by SHA256 for a decoded message of n bytes are exactly one Start
frame, then floor(n/64) Update frames (the i-th carrying message bytes
64i..64i+63), then one End frame carrying the trailing n mod 64 bytes with
param2 equal to that trailing count; and the operation reports no error. -/
theorem sha256_block_structure (sfmt msg : String) (mb : List Nat)
    (h : shaMsgBytes sfmt msg = Except.ok mb) :
    cmdFrames (SHA256 sfmt msg okBus 0).2.1 =
      encodeCmdFrame 0x47 0x00 0x00 0x00 []
        :: ((List.range (mb.length / 64)).map (fun i =>
              encodeCmdFrame 0x47 0x01 0x40 0x00 ((mb.drop (64 * i)).take 64))
          ++ [encodeCmdFrame 0x47 0x02 (mb.length % 64) 0x00
              (mb.drop (mb.length / 64 * 64))]) ∧
    (SHA256 sfmt msg okBus 0).1.2 = none := by
  have hrun := sha256_okBus sfmt msg mb h
  have hp2 : (mb.length - mb.length / 64 * 64) % 256 = mb.length % 64 := by omega
  rw [hrun]
  constructor
  · simp only [cmdFrames_append, cmdFrames_sessionTrace, hp2,
      cmdFrames_flatten_sessions (fun k =>
        encodeCmdFrame 0x47 0x01 0x40 0x00 ((mb.drop (64 * k)).take 64))
        (List.range (mb.length / 64))]
    have hsleep : cmdFrames [BusOp.write I2CBus I2CAddress 0x01 []] = [] := rfl
    rw [hsleep]
    simp
  · rfl

/-- C8 witness: the theorem applied to the one-byte message "a" in "str"
format. -/
theorem sha256_block_structure_witness :
    shaMsgBytes "str" "a" = Except.ok [0x61] ∧
    cmdFrames (SHA256 "str" "a" okBus 0).2.1 =
      encodeCmdFrame 0x47 0x00 0x00 0x00 []
        :: ((List.range ([0x61].length / 64)).map (fun i =>
              encodeCmdFrame 0x47 0x01 0x40 0x00 (([0x61].drop (64 * i)).take 64))
          ++ [encodeCmdFrame 0x47 0x02 ([0x61].length % 64) 0x00
              ([0x61].drop ([0x61].length / 64 * 64))]) := by
  refine ⟨rfl, ?_⟩
  exact (sha256_block_structure "str" "a" [0x61] rfl).1

/-- C10: for every call to SHA256 whose format argument is neither "hex"
nor "str", or is "hex" with an empty message string, the message is
silently treated as empty: decoding yields the empty byte list with no
error, no Update command is issued, and the End command carries zero bytes
with param2 = 0. -/
theorem sha256_unknown_format_silently_empty (sfmt msg : String)
    (h : (sfmt ≠ "hex" ∧ sfmt ≠ "str") ∨ (sfmt = "hex" ∧ msg = "")) :
    shaMsgBytes sfmt msg = Except.ok [] ∧
    (SHA256 sfmt msg okBus 0).1.2 = none ∧
    cmdFrames (SHA256 sfmt msg okBus 0).2.1 =
      [encodeCmdFrame 0x47 0x00 0x00 0x00 [],
       encodeCmdFrame 0x47 0x02 0x00 0x00 []] := by
  have hmb : shaMsgBytes sfmt msg = Except.ok [] := by
    rcases h with ⟨h1, h2⟩ | ⟨h1, h2⟩
    · simp [shaMsgBytes, h1, h2]
    · subst h1 h2
      simp [shaMsgBytes]
  have hrun := sha256_okBus sfmt msg [] hmb
  refine ⟨hmb, by rw [hrun], ?_⟩
  rw [hrun]
  simp only [cmdFrames_append, cmdFrames_sessionTrace]
  rfl

/-- C10 witness: the theorem applied to the unrecognized format "raw". -/
theorem sha256_unknown_format_silently_empty_witness :
    (("raw" : String) ≠ "hex" ∧ ("raw" : String) ≠ "str") ∧
    shaMsgBytes "raw" "abc" = Except.ok [] ∧
    (SHA256 "raw" "abc" okBus 0).1.2 = none ∧
    cmdFrames (SHA256 "raw" "abc" okBus 0).2.1 =
      [encodeCmdFrame 0x47 0x00 0x00 0x00 [],
       encodeCmdFrame 0x47 0x02 0x00 0x00 []] := by
  refine ⟨by decide, ?_⟩
  exact sha256_unknown_format_silently_empty "raw" "abc" (Or.inl (by decide))

end Atecc608
